import Mathlib

/-!
Shallow embedding of the IdentityLab repository's core logic
(src/preprocessing.py: `AadhaarDataPreprocessor`, and src/analysis.py:
`AadhaarAnalyzer`, `calculate_concentration_index`), together with proofs of
the specification claims about it.

Numeric cells are modelled as rationals; where IEEE-754 special values
(NaN/inf) are observable in the Python code (division by a zero sum,
`pct_change` on the first rows) they are modelled explicitly by the
`PyFloat` type.  Missing cells (NaN produced by `errors='coerce'` or absent
values) are modelled as `Option` values.
-/

attribute [local semireducible] Rat.add Rat.mul Rat.sub Rat.inv

deriving instance DecidableEq for Except

/-- IEEE-style extended value as produced by pandas/numpy arithmetic:
a finite value, NaN, +inf or -inf.  Finite values are modelled as exact
rationals (float representation error is abstracted away). -/
inductive PyFloat where
  | val (q : ℚ)
  | nan
  | inf
  | ninf
deriving DecidableEq, Repr

namespace PyFloat

/-- Float division `num / den` of finite operands: numpy yields NaN for
`0/0`, +inf for `pos/0`, -inf for `neg/0`, and the exact quotient
otherwise. -/
def pydiv (num den : ℚ) : PyFloat :=
  if den = 0 then
    if num = 0 then .nan else if 0 < num then .inf else .ninf
  else .val (num / den)

/-- Multiplication of a PyFloat by a finite constant, as numpy computes it
(`nan * c = nan`; `±inf * c` flips sign with `c < 0` and is NaN at `c = 0`). -/
def pfMul (a : PyFloat) (c : ℚ) : PyFloat :=
  match a with
  | .val q => .val (q * c)
  | .nan => .nan
  | .inf => if 0 < c then .inf else if c = 0 then .nan else .ninf
  | .ninf => if 0 < c then .ninf else if c = 0 then .nan else .inf

/-- Subtraction of a finite constant, as numpy computes it
(`nan - c = nan`, `±inf - c = ±inf`). -/
def pfSub (a : PyFloat) (c : ℚ) : PyFloat :=
  match a with
  | .val q => .val (q - c)
  | .nan => .nan
  | .inf => .inf
  | .ninf => .ninf

/-- Round a rational to the nearest integer, ties to even — the rounding
mode of numpy/pandas `.round`. -/
def roundHalfEven (q : ℚ) : ℤ :=
  let f : ℤ := ⌊q⌋
  let r : ℚ := q - f
  if r < 1/2 then f
  else if 1/2 < r then f + 1
  else if f % 2 = 0 then f else f + 1

/-- `.round(2)`: round to 2 decimal places (NaN and infinities unchanged). -/
def pfRound2 (a : PyFloat) : PyFloat :=
  match a with
  | .val q => .val ((roundHalfEven (q * 100) : ℚ) / 100)
  | x => x

/-- A PyFloat is finite when it is an actual number (not NaN nor ±inf). -/
def isFinite : PyFloat → Prop
  | .val _ => True
  | _ => False

instance : DecidablePred isFinite := by
  intro a; cases a <;> simp [isFinite] <;> infer_instance

end PyFloat

/-! ### String helpers (Python `str` methods used by the cleaning code) -/

/-- Python `str.strip()`: drop leading and trailing whitespace. -/
def pyStrip (s : String) : String :=
  ⟨((s.data.dropWhile Char.isWhitespace).reverse.dropWhile Char.isWhitespace).reverse⟩

/-- Character-level worker for `str.title()`: uppercase an alphabetic
character that follows a non-alphabetic one, lowercase the rest. -/
def pyTitleAux : List Char → Bool → List Char
  | [], _ => []
  | c :: cs, prevAlpha =>
    (if c.isAlpha then (if prevAlpha then c.toLower else c.toUpper) else c)
      :: pyTitleAux cs c.isAlpha

/-- Python `str.title()`. -/
def pyTitle (s : String) : String := ⟨pyTitleAux s.data false⟩

/-- Python `str.zfill(w)`: left-pad with '0' to width `w`, inserting the
padding after a leading sign character. -/
def zfill (s : String) (w : Nat) : String :=
  if w ≤ s.length then s
  else
    match s.data with
    | c :: rest =>
      if c = '+' ∨ c = '-' then ⟨c :: (List.replicate (w - s.length) '0' ++ rest)⟩
      else ⟨List.replicate (w - s.length) '0' ++ s.data⟩
    | [] => ⟨List.replicate w '0'⟩

/-! ### Dates (`pd.to_datetime(..., format='%d-%m-%Y', errors='coerce')`) -/

/-- A calendar date as carried by a pandas datetime column. -/
structure Date where
  year : Nat
  month : Nat
  day : Nat
deriving DecidableEq, Repr

/-- Gregorian leap-year test. -/
def isLeapYear (y : Nat) : Bool :=
  y % 4 == 0 && (y % 100 != 0 || y % 400 == 0)

/-- Number of days in a month of a given year. -/
def daysInMonth (y m : Nat) : Nat :=
  if m = 2 then (if isLeapYear y then 29 else 28)
  else if m = 4 ∨ m = 6 ∨ m = 9 ∨ m = 11 then 30
  else 31

/-- `d` is a real calendar date. -/
def isValidDate (d : Date) : Prop :=
  1 ≤ d.month ∧ d.month ≤ 12 ∧ 1 ≤ d.day ∧ d.day ≤ daysInMonth d.year d.month

instance : DecidablePred isValidDate := by
  intro d; unfold isValidDate; infer_instance

/-- A nonempty string of decimal digits. -/
def isDigitStr (s : String) : Bool :=
  s.length > 0 && s.data.all Char.isDigit

/-- Decimal value of a digit string. -/
def strToNat (s : String) : Nat :=
  s.data.foldl (fun acc c => acc * 10 + (c.toNat - 48)) 0

/-- Split a character list at every '-' (Python `"a-b".split("-")`
semantics: empty segments are kept). -/
def splitOnDash : List Char → List (List Char)
  | [] => [[]]
  | c :: rest =>
    match splitOnDash rest with
    | [] => [[c]]
    | g :: gs => if c = '-' then [] :: g :: gs else (c :: g) :: gs

/-- `pd.to_datetime(s, format='%d-%m-%Y', errors='coerce')`: parse
day-month-year separated by '-' (day and month up to 2 digits, year 4
digits), returning `none` (NaT) for anything unparseable or not a real
calendar date — e.g. "31-02-2024". -/
def parseDate (s : String) : Option Date :=
  match (splitOnDash s.data).map (fun cs => String.mk cs) with
  | [ds, ms, ys] =>
    if isDigitStr ds && isDigitStr ms && isDigitStr ys
        && ds.length ≤ 2 && ms.length ≤ 2 && ys.length == 4 then
      if isValidDate ⟨strToNat ys, strToNat ms, strToNat ds⟩ then
        some ⟨strToNat ys, strToNat ms, strToNat ds⟩
      else none
    else none
  | _ => none

/-- Day of week by Sakamoto's method, 0 = Sunday. -/
def dayOfWeekSakamoto (dt : Date) : Nat :=
  let t := [0, 3, 2, 5, 0, 3, 5, 1, 4, 6, 2, 4]
  let y := if dt.month < 3 then dt.year - 1 else dt.year
  (y + y / 4 - y / 100 + y / 400 + t.getD (dt.month - 1) 0 + dt.day) % 7

/-- pandas `Series.dt.dayofweek`: 0 = Monday … 6 = Sunday. -/
def dayOfWeekMon (dt : Date) : Nat :=
  (dayOfWeekSakamoto dt + 6) % 7

/-- Ordinal day of the year (1-based). -/
def dayOfYear (dt : Date) : Nat :=
  (List.range (dt.month - 1)).foldl (fun acc i => acc + daysInMonth dt.year (i + 1)) 0 + dt.day

/-- ISO weekday, 1 = Monday … 7 = Sunday. -/
def isoWeekday (dt : Date) : Nat := dayOfWeekMon dt + 1

/-- Number of ISO weeks (52 or 53) of year `y`. -/
def isoWeeksInYear (y : Nat) : Nat :=
  let p := fun (yy : Nat) => (yy + yy / 4 - yy / 100 + yy / 400) % 7
  if p y = 4 ∨ p (y - 1) = 3 then 53 else 52

/-- ISO-8601 week number, as pandas `dt.isocalendar().week`. -/
def isoWeek (dt : Date) : Nat :=
  let w := (dayOfYear dt + 10 - isoWeekday dt) / 7
  if w = 0 then isoWeeksInYear (dt.year - 1)
  else if w = 53 ∧ isoWeeksInYear dt.year = 52 then 1
  else w

/-! ### The preprocessing pipeline (`AadhaarDataPreprocessor`)

The three cleaning methods are textually identical up to the names of their
count columns (`age_0_5`/`age_5_17`/`age_18_greater` for enrolment,
`demo_age_5_17`/`demo_age_17_` for demographic, `bio_age_5_17`/`bio_age_17_`
for biometric) and of their total column / report key.  A raw row therefore
carries its category's count cells as a list, in schema order; a cell is
`none` when `pd.to_numeric(..., errors='coerce')` would yield NaN (missing
or unparseable) and `some q` when it parses to the number `q`. -/

/-- A row of a raw input table. -/
structure RawRow where
  date : String
  state : String
  district : String
  pincode : String
  counts : List (Option ℚ)
deriving DecidableEq, Repr

/-- A row of a cleaned table: parsed date, normalized strings, coerced
count cells, the derived total column, and the derived temporal columns. -/
structure CleanRow where
  date : Date
  state : String
  district : String
  pincode : String
  counts : List ℚ
  total : ℚ
  year : Nat
  month : Nat
  day_of_week : Nat
  week_of_year : Nat
deriving DecidableEq, Repr

/-- Per-category entry of the cleaning report. -/
structure CategoryReport where
  initial_rows : Nat
  final_rows : Nat
  rows_removed : Nat
  invalid_dates : Nat
  zero_total : Nat
deriving DecidableEq, Repr

/-- `fillna(0).clip(lower=0)` applied to a `to_numeric(errors='coerce')`
cell: missing/unparseable becomes 0, negatives are clamped to 0. -/
def coerceCount (v : Option ℚ) : ℚ :=
  match v with
  | none => 0
  | some q => max q 0

/-- Build a cleaned row from a parsed date and a (string-normalized,
pincode-padded) raw row, coercing the count cells and deriving the total
and the temporal columns. -/
def mkCleanRow (d : Date) (r : RawRow) : CleanRow :=
  let cs := r.counts.map coerceCount
  { date := d
    state := r.state
    district := r.district
    pincode := r.pincode
    counts := cs
    total := cs.sum
    year := d.year
    month := d.month
    day_of_week := dayOfWeekMon d
    week_of_year := isoWeek d }

/-- Common body of the three cleaning methods, following the source order:
parse dates and drop failures (counted as `invalid_dates`); strip and
title-case `state`/`district`; zfill the pincode to 6 and keep only rows
whose padded pincode has length 6; coerce counts and derive the total;
count and drop rows with total 0; derive temporal columns; report.
(The temporal columns are derived after the zero filter in the source;
both steps are pure per-row maps, so the order does not affect values.) -/
def cleanData (df : List RawRow) : List CleanRow × CategoryReport :=
  let initial_rows := df.length
  let invalid_dates := (df.filter (fun r => (parseDate r.date).isNone)).length
  let dated : List (Date × RawRow) :=
    df.filterMap (fun r => (parseDate r.date).map (fun d => (d, r)))
  let titled : List (Date × RawRow) :=
    dated.map (fun p => (p.1,
      { p.2 with state := pyTitle (pyStrip p.2.state),
                 district := pyTitle (pyStrip p.2.district) }))
  let pinned : List (Date × RawRow) :=
    (titled.map (fun p => (p.1, { p.2 with pincode := zfill p.2.pincode 6 }))).filter
      (fun p => p.2.pincode.length == 6)
  let rows : List CleanRow := pinned.map (fun p => mkCleanRow p.1 p.2)
  let zero_total := (rows.filter (fun r => r.total == 0)).length
  let final := rows.filter (fun r => decide (0 < r.total))
  (final,
   { initial_rows := initial_rows
     final_rows := final.length
     rows_removed := initial_rows - final.length
     invalid_dates := invalid_dates
     zero_total := zero_total })

/-- The session report mapping (`self.cleaning_report`): a Python dict from
category name to report entry, in insertion order. -/
abbrev ReportMap := List (String × CategoryReport)

/-- Python dict assignment `m[k] = v`: overwrite in place when the key is
present, append otherwise. -/
def dictInsert (m : ReportMap) (k : String) (v : CategoryReport) : ReportMap :=
  if (List.any m (fun p => p.1 == k)) then
    List.map (fun p => if p.1 = k then (k, v) else p) m
  else m ++ [(k, v)]

/-- Result of one cleaning call: the caller's dataframe after the call (the
method copies the input and mutates only the copy), the returned cleaned
table, and the session report mapping after the call. -/
structure CleanCall where
  df_after : List RawRow
  cleaned : List CleanRow
  report_after : ReportMap
deriving Repr

namespace AadhaarDataPreprocessor

/-- `AadhaarDataPreprocessor.clean_enrolment_data`: count columns
`age_0_5`, `age_5_17`, `age_18_greater`; total column `total_enrolments`;
report key "enrolment" (its `zero_total` field is `zero_enrolments`). -/
def clean_enrolment_data (report : ReportMap) (df : List RawRow) : CleanCall :=
  ⟨df, (cleanData df).1, dictInsert report "enrolment" (cleanData df).2⟩

/-- `AadhaarDataPreprocessor.clean_demographic_data`: count columns
`demo_age_5_17`, `demo_age_17_`; total column `total_demo_updates`;
report key "demographic". -/
def clean_demographic_data (report : ReportMap) (df : List RawRow) : CleanCall :=
  ⟨df, (cleanData df).1, dictInsert report "demographic" (cleanData df).2⟩

/-- `AadhaarDataPreprocessor.clean_biometric_data`: count columns
`bio_age_5_17`, `bio_age_17_`; total column `total_bio_updates`;
report key "biometric". -/
def clean_biometric_data (report : ReportMap) (df : List RawRow) : CleanCall :=
  ⟨df, (cleanData df).1, dictInsert report "biometric" (cleanData df).2⟩

end AadhaarDataPreprocessor

/-! ### The analysis module (`AadhaarAnalyzer` and module-level functions)

Grouped tables are modelled as lists of (group key, value) pairs; a pandas
`groupby` emits one group per distinct key, keys sorted ascending
(`sort=True` default). -/

/-- Distinct group keys of a table, ascending — the index of a pandas
`groupby(...).sum()` result. -/
def groupKeys {K : Type} [LinearOrder K] (rows : List (K × ℚ)) : List K :=
  ((rows.map Prod.fst).dedup).insertionSort (· ≤ ·)

/-- Sum of the value column over the rows of group `k` (0 when the key is
absent from the table). -/
def sumFor {K : Type} [DecidableEq K] (rows : List (K × ℚ)) (k : K) : ℚ :=
  ((rows.filter (fun p => p.1 = k)).map Prod.snd).sum

/-- Number of rows of group `k`. -/
def countFor {K : Type} [DecidableEq K] (rows : List (K × ℚ)) (k : K) : Nat :=
  (rows.filter (fun p => p.1 = k)).length

/-- `groupby(group_col)[value_col].sum()`: one (key, sum) entry per
distinct key, keys ascending. -/
def groupSums {K : Type} [LinearOrder K] (rows : List (K × ℚ)) : List (K × ℚ) :=
  (groupKeys rows).map (fun k => (k, sumFor rows k))

/-- Comparator realizing `Series.nlargest(n)` with its default
`keep='first'` on a series whose index (the group keys) is ascending and
duplicate-free: larger values first, ties broken by the earlier (smaller)
key. -/
def nlargestLE {K : Type} [LinearOrder K] (a b : K × ℚ) : Bool :=
  decide (b.2 < a.2) || (decide (a.2 = b.2) && decide (a.1 ≤ b.1))

/-- `AadhaarAnalyzer.top_n_analysis`: group by `group_col`, sum
`value_col`, keep the `n` largest sums. -/
def top_n_analysis {K : Type} [LinearOrder K] (df : List (K × ℚ)) (n : Nat) :
    List (K × ℚ) :=
  ((groupSums df).insertionSort (fun a b => nlargestLE a b = true)).take n

/-- `AadhaarAnalyzer.geographical_aggregation`: group by the geography
column, emit (key, sum, mean, count), sorted descending by sum
(`sort_values(..., ascending=False)`). -/
def geographical_aggregation {K : Type} [LinearOrder K] (df : List (K × ℚ)) :
    List (K × ℚ × ℚ × Nat) :=
  ((groupKeys df).map
      (fun k => (k, sumFor df k, sumFor df k / (countFor df k : ℚ), countFor df k))).insertionSort
    (fun a b => b.2.1 ≤ a.2.1)

/-- Descending order on ratio values as `sort_values(ascending=False)`
orders them: +inf largest, -inf smallest, NaN placed last
(`na_position='last'`). -/
def pfDescLe : PyFloat → PyFloat → Bool
  | _, .nan => true
  | .nan, _ => false
  | .inf, _ => true
  | _, .inf => false
  | _, .ninf => true
  | .ninf, _ => false
  | .val a, .val b => decide (b ≤ a)

/-- `AadhaarAnalyzer.calculate_update_ratio`: sum `total_enrolments` and
the update total by the geography key; combining the two series into one
frame aligns on the sorted union of their keys, `fillna(0)` turns a key
missing on one side into 0; the ratio column is
`(updates / enrolments * 100).round(2)` (float division: 0 enrolments
gives ±inf or NaN); sort descending by ratio. -/
def calculate_update_ratio {K : Type} [LinearOrder K]
    (enrolment_df update_df : List (K × ℚ)) : List (K × ℚ × ℚ × PyFloat) :=
  let keys := ((enrolment_df.map Prod.fst ++ update_df.map Prod.fst).dedup).insertionSort (· ≤ ·)
  let joined := keys.map (fun k =>
    (k, sumFor enrolment_df k, sumFor update_df k,
     PyFloat.pfRound2 ((PyFloat.pydiv (sumFor update_df k) (sumFor enrolment_df k)).pfMul 100)))
  joined.insertionSort (fun a b => pfDescLe a.2.2.2 b.2.2.2 = true)

/-- `Series.pct_change(periods) * 100` on a fully numeric value column:
the first `periods` entries are NaN; entry `t ≥ periods` is
`(v[t] - v[t-periods]) / v[t-periods] * 100`. -/
def calculate_growth_rate (xs : List ℚ) (periods : Nat) : List PyFloat :=
  List.replicate (min periods xs.length) PyFloat.nan ++
    List.zipWith (fun cur prev => (PyFloat.pydiv (cur - prev) prev).pfMul 100)
      (xs.drop periods) xs

/-- The 1-indexed rank-weighted sum `Σ (i+1)·v_i` over list positions `i`,
i.e. `np.sum(np.arange(1, n+1) * values)`: the head gets weight 1 and each
later element one more than its weight in the tail, whence the recursion
`W (x :: xs) = x + W xs + sum xs`. -/
def weightedSum : List ℚ → ℚ
  | [] => 0
  | x :: xs => x + weightedSum xs + xs.sum

/-- `calculate_concentration_index` (Gini): sort ascending and compute
`(2·Σ(i·v_i)) / (n·cumsum[-1]) − (n+1)/n`.  On an empty table
`cumsum[-1]` raises IndexError, modelled as `.error ()`; when the total is
zero the numpy division yields NaN (or ±inf), propagated by `pydiv`. -/
def calculate_concentration_index (values : List ℚ) : Except Unit PyFloat :=
  let sorted := values.insertionSort (· ≤ ·)
  let n := sorted.length
  if n = 0 then .error ()
  else
    .ok ((PyFloat.pydiv (2 * weightedSum sorted) (n * sorted.sum)).pfSub
      (((n : ℚ) + 1) / n))

/-- `Series.dropna()` on a column whose missing cells are `none`. -/
def dropna (xs : List (Option ℚ)) : List ℚ := xs.filterMap id

/-- The paired samples `bivariate_analysis` hands to
`stats.pearsonr(df[col1].dropna(), df[col2].dropna())` (and likewise
`spearmanr`): each column's missing cells are dropped independently and
the remaining values paired positionally; scipy raises ValueError when the
two lengths differ (`.error ()`).  The correlation coefficients and
p-values themselves involve irrational arithmetic no claim needs. -/
def bivariate_samples (c1 c2 : List (Option ℚ)) :
    Except Unit (List (ℚ × ℚ)) :=
  let a := dropna c1
  let b := dropna c2
  if a.length = b.length then .ok (a.zip b) else .error ()

/-- Follows the spec's words (for comparison with `bivariate_samples`):
the paired samples over the intersection of rows where both fields are
non-missing. -/
def specIntersectPairs (c1 c2 : List (Option ℚ)) : List (ℚ × ℚ) :=
  (c1.zip c2).filterMap (fun p =>
    match p with
    | (some x, some y) => some (x, y)
    | _ => none)

/-! ### Frame effects of the Analyzer operations

For each exposed operation, the state of the caller's table argument after
the call, as the code leaves it.  Every operation except
`detect_seasonality` either only reads its argument (groupby/agg/statistics
allocate fresh objects) or copies it first (`calculate_growth_rate` does
`df.copy()` and adds the growth column to the copy), so its effect is the
identity; `detect_seasonality` executes `df['month'] = df['date'].dt.month`
on the caller's frame. -/

/-- A row of a table handed to `detect_seasonality`: a datetime `date`
column, a `month` column that may be absent (`none`), and the value
column. -/
structure SRow where
  date : Date
  month : Option Nat
  value : ℚ
deriving DecidableEq, Repr

/-- Caller's frame after `detect_seasonality`: the code assigns
`df['month'] = df['date'].dt.month` before aggregating. -/
def detect_seasonality_df_after (df : List SRow) : List SRow :=
  df.map (fun r => { r with month := some r.date.month })

/-- Caller's column after `univariate_analysis` (read-only). -/
def univariate_analysis_df_after (col : List (Option ℚ)) : List (Option ℚ) := col

/-- Caller's columns after `bivariate_analysis` (read-only). -/
def bivariate_analysis_df_after (cols : List (Option ℚ) × List (Option ℚ)) :
    List (Option ℚ) × List (Option ℚ) := cols

/-- Caller's frame after `temporal_aggregation` (read-only groupby). -/
def temporal_aggregation_df_after (df : List (Date × ℚ)) : List (Date × ℚ) := df

/-- Caller's frame after `geographical_aggregation` (read-only groupby). -/
def geographical_aggregation_df_after {K : Type} (df : List (K × ℚ)) :
    List (K × ℚ) := df

/-- Caller's frame after `calculate_growth_rate` (the growth column is
added to `df.copy()`, not to the argument). -/
def calculate_growth_rate_df_after (xs : List ℚ) : List ℚ := xs

/-- Caller's frame after `top_n_analysis` (read-only groupby). -/
def top_n_analysis_df_after {K : Type} (df : List (K × ℚ)) : List (K × ℚ) := df

/-- Both callers' frames after `calculate_update_ratio` (read-only
groupbys on each). -/
def calculate_update_ratio_dfs_after {K : Type}
    (dfs : List (K × ℚ) × List (K × ℚ)) : List (K × ℚ) × List (K × ℚ) := dfs

/-! ### Helper lemmas about the cleaning pipeline -/

/-- A successful `parseDate` only returns real calendar dates. -/
theorem parseDate_valid {s : String} {d : Date} (h : parseDate s = some d) :
    isValidDate d := by
  unfold parseDate at h
  split at h
  · split_ifs at h with h1 h2
    · injection h with h3
      subst h3
      exact h2
  · exact absurd h (by simp)

/-- Every row of a cleaned table has a valid parsed date, a 6-character
pincode, a total equal to the sum of its (coerced) count cells, and a
positive total. -/
theorem cleanData_mem {df : List RawRow} {r : CleanRow} (hr : r ∈ (cleanData df).1) :
    isValidDate r.date ∧ r.pincode.length = 6 ∧ r.total = r.counts.sum ∧ 0 < r.total := by
  unfold cleanData at hr
  simp only [List.mem_filter, List.mem_map, List.mem_filterMap, Option.map_eq_some',
    decide_eq_true_eq, beq_iff_eq] at hr
  obtain ⟨⟨a, ⟨hA1, hlen⟩, hmk⟩, hpos⟩ := hr
  obtain ⟨a1, ⟨a0, ⟨raw, hraw, d0, hparse, hpd⟩, htit⟩, hpin⟩ := hA1
  subst hpd
  subst htit
  subst hpin
  subst hmk
  exact ⟨parseDate_valid hparse, hlen, rfl, hpos⟩

/-! ### C1 — the spec's short-pincode / invalid-date cleaning example -/

/-- C1 counterexample: on the claim's two-row table the code drops only the
invalid-date row.  `zfill` pads the 4-character pincode "1234" to
"001234", which passes the 6-character filter, so its row is kept: the
report records `rows_removed = 1`, not 2, and one row survives. -/
theorem C1_counterexample :
    ((AadhaarDataPreprocessor.clean_enrolment_data []
          [⟨"15-01-2024", "Delhi", "New Delhi", "1234", [some 5, some 3, some 2]⟩,
           ⟨"31-02-2024", "Goa", "North Goa", "110001", [some 1, some 2, some 3]⟩]).report_after.lookup
        "enrolment").map (fun rep => rep.rows_removed) = some 1 ∧
    ¬ (((AadhaarDataPreprocessor.clean_enrolment_data []
          [⟨"15-01-2024", "Delhi", "New Delhi", "1234", [some 5, some 3, some 2]⟩,
           ⟨"31-02-2024", "Goa", "North Goa", "110001", [some 1, some 2, some 3]⟩]).report_after.lookup
        "enrolment").map (fun rep => rep.rows_removed) = some 2) ∧
    (AadhaarDataPreprocessor.clean_enrolment_data []
          [⟨"15-01-2024", "Delhi", "New Delhi", "1234", [some 5, some 3, some 2]⟩,
           ⟨"31-02-2024", "Goa", "North Goa", "110001", [some 1, some 2, some 3]⟩]).cleaned.length
      = 1 := by decide

/-- C1 (amended): cleaning the claim's table drops only the invalid-date
row: the report reads initial_rows = 2, final_rows = 1, rows_removed = 1
with the drop attributed to the invalid-date counter (and zero to the
zero-total counter); the 4-character pincode is zero-padded to "001234"
(6 characters) and its row is kept.  There is no short-pincode counter in
the report. -/
theorem C1_cleaning_example :
    (AadhaarDataPreprocessor.clean_enrolment_data []
          [⟨"15-01-2024", "Delhi", "New Delhi", "1234", [some 5, some 3, some 2]⟩,
           ⟨"31-02-2024", "Goa", "North Goa", "110001", [some 1, some 2, some 3]⟩]).report_after
      = [("enrolment", ⟨2, 1, 1, 1, 0⟩)] ∧
    (AadhaarDataPreprocessor.clean_enrolment_data []
          [⟨"15-01-2024", "Delhi", "New Delhi", "1234", [some 5, some 3, some 2]⟩,
           ⟨"31-02-2024", "Goa", "North Goa", "110001", [some 1, some 2, some 3]⟩]).cleaned.map
        (fun r => r.pincode) = ["001234"] := by decide

/-! ### C2 — validity invariant of cleaned rows -/

/-- C2 counterexample: a raw row whose pincode is "abc" survives cleaning
with pincode "000abc" — 6 characters long but not made of digits, so the
claim's "pincode consisting of exactly 6 digits" is false on the code
(the filter checks only the padded length). -/
theorem C2_counterexample :
    ((AadhaarDataPreprocessor.clean_enrolment_data []
          [⟨"15-01-2024", "Delhi", "New Delhi", "abc", [some 5, some 3, some 2]⟩]).cleaned.map
        (fun r => r.pincode)) = ["000abc"] ∧
    ("000abc".data.all Char.isDigit) = false := by decide

/-- C2 (amended): every row of the CleanedTable returned by any of the
three cleaning operations has a successfully parsed valid calendar date
and a pincode of exactly 6 characters (not necessarily 6 digits). -/
theorem C2_cleaned_rows_valid (st : ReportMap) (df : List RawRow) (r : CleanRow) :
    (r ∈ (AadhaarDataPreprocessor.clean_enrolment_data st df).cleaned →
       isValidDate r.date ∧ r.pincode.length = 6) ∧
    (r ∈ (AadhaarDataPreprocessor.clean_demographic_data st df).cleaned →
       isValidDate r.date ∧ r.pincode.length = 6) ∧
    (r ∈ (AadhaarDataPreprocessor.clean_biometric_data st df).cleaned →
       isValidDate r.date ∧ r.pincode.length = 6) :=
  ⟨fun h => ⟨(cleanData_mem h).1, (cleanData_mem h).2.1⟩,
   fun h => ⟨(cleanData_mem h).1, (cleanData_mem h).2.1⟩,
   fun h => ⟨(cleanData_mem h).1, (cleanData_mem h).2.1⟩⟩

/-- Witness for C2_cleaned_rows_valid at a concrete cleaned row. -/
theorem C2_witness :
    isValidDate ⟨2024, 1, 15⟩ ∧ ("001234" : String).length = 6 :=
  (C2_cleaned_rows_valid []
      [⟨"15-01-2024", "Delhi", "New Delhi", "1234", [some 5, some 3, some 2]⟩]
      ⟨⟨2024, 1, 15⟩, "Delhi", "New Delhi", "001234", [5, 3, 2], 10, 2024, 1, 0, 3⟩).1
    (by decide)

/-! ### C9 — the derived total column -/

/-- C9: in every row of every CleanedTable produced by any of the three
cleaning operations, the derived total column (`total_enrolments` /
`total_demo_updates` / `total_bio_updates`) equals the sum of that
category's (coerced) count columns in the same row. -/
theorem C9_total_eq_sum (st : ReportMap) (df : List RawRow) (r : CleanRow) :
    (r ∈ (AadhaarDataPreprocessor.clean_enrolment_data st df).cleaned →
       r.total = r.counts.sum) ∧
    (r ∈ (AadhaarDataPreprocessor.clean_demographic_data st df).cleaned →
       r.total = r.counts.sum) ∧
    (r ∈ (AadhaarDataPreprocessor.clean_biometric_data st df).cleaned →
       r.total = r.counts.sum) :=
  ⟨fun h => (cleanData_mem h).2.2.1,
   fun h => (cleanData_mem h).2.2.1,
   fun h => (cleanData_mem h).2.2.1⟩

/-- Witness for C9_total_eq_sum at a concrete cleaned row. -/
theorem C9_witness : (10 : ℚ) = List.sum [(5 : ℚ), 3, 2] :=
  (C9_total_eq_sum []
      [⟨"15-01-2024", "Delhi", "New Delhi", "110001", [some 5, some 3, some 2]⟩]
      ⟨⟨2024, 1, 15⟩, "Delhi", "New Delhi", "110001", [5, 3, 2], 10, 2024, 1, 0, 3⟩).1
    (by decide)

/-! ### C10 — frame behaviour of the cleaning methods -/

/-- Looking a key up after replacing every entry keyed `k` by `(k, v)`. -/
theorem lookup_mapReplace (k : String) (v : CategoryReport) (q : String) :
    ∀ m : ReportMap,
      (List.map (fun p => if p.1 = k then (k, v) else p) m).lookup q
        = if q = k then (if m.any (fun p => p.1 == k) then some v else none)
          else m.lookup q := by
  intro m
  induction m with
  | nil => simp [List.lookup]
  | cons p m ih =>
    by_cases hp : p.1 = k
    · have hpb : (p.1 == k) = true := beq_iff_eq.mpr hp
      simp only [List.map_cons, if_pos hp]
      by_cases hq : q = k
      · have hqb : (q == k) = true := beq_iff_eq.mpr hq
        simp [List.lookup, hpb, hqb, hq, List.any_cons]
      · have hqb : (q == k) = false := beq_eq_false_iff_ne.mpr hq
        have hqp : (q == p.1) = false := beq_eq_false_iff_ne.mpr (by rw [hp]; exact hq)
        simp [List.lookup, hpb, hqb, hqp, ih, hq, List.any_cons]
    · have hpb : (p.1 == k) = false := beq_eq_false_iff_ne.mpr hp
      simp only [List.map_cons, if_neg hp]
      by_cases hq : q = p.1
      · have hqk : ¬ q = k := by rw [hq]; exact hp
        have hqb : (q == p.1) = true := beq_iff_eq.mpr hq
        simp [List.lookup, hpb, hqb, hqk, List.any_cons]
      · have hqb : (q == p.1) = false := beq_eq_false_iff_ne.mpr hq
        simp only [List.any_cons, hpb, Bool.false_or]
        simp [List.lookup, hqb, ih]

/-- Looking a key up in `m ++ l2` tries `m` first. -/
theorem lookup_append (q : String) (l2 : ReportMap) :
    ∀ m : ReportMap,
      (m ++ l2).lookup q
        = match m.lookup q with
          | some x => some x
          | none => l2.lookup q := by
  intro m
  induction m with
  | nil => simp [List.lookup]
  | cons p m ih =>
    by_cases hq : q = p.1
    · have hqb : (q == p.1) = true := beq_iff_eq.mpr hq
      simp [List.lookup, hqb]
    · have hqb : (q == p.1) = false := beq_eq_false_iff_ne.mpr hq
      simp [List.lookup, hqb, ih]

/-- A key that no entry carries looks up to `none`. -/
theorem lookup_eq_none_of_any_false (k : String) :
    ∀ m : ReportMap, m.any (fun p => p.1 == k) = false → m.lookup k = none := by
  intro m
  induction m with
  | nil => intro _; simp [List.lookup]
  | cons p m ih =>
    intro h
    simp only [List.any_cons, Bool.or_eq_false_iff] at h
    have h1 : (k == p.1) = false :=
      beq_eq_false_iff_ne.mpr (fun hh => (beq_eq_false_iff_ne.mp h.1) hh.symm)
    simp [List.lookup, h1, ih h.2]

/-- Python dict assignment `m[k] = v` seen through `lookup`. -/
theorem dictInsert_lookup (m : ReportMap) (k : String) (v : CategoryReport) (q : String) :
    (dictInsert m k v).lookup q = if q = k then some v else m.lookup q := by
  unfold dictInsert
  split
  · next hany =>
    rw [lookup_mapReplace k v q m, hany]
    simp
  · next hany =>
    rw [lookup_append q [(k, v)] m]
    by_cases hq : q = k
    · subst hq
      rw [lookup_eq_none_of_any_false q m
        (by simp only [Bool.not_eq_true] at hany; exact hany)]
      simp [List.lookup]
    · have hqb : (q == k) = false := beq_eq_false_iff_ne.mpr hq
      simp only [hq, if_false]
      cases h : m.lookup q <;> simp [List.lookup, hqb]

/-- Dict assignment grows the mapping by one entry exactly when the key
was absent. -/
theorem dictInsert_length (m : ReportMap) (k : String) (v : CategoryReport) :
    (dictInsert m k v).length
      = if m.any (fun p => p.1 == k) then m.length else m.length + 1 := by
  unfold dictInsert
  split <;> simp_all

/-- C10: each cleaning method works on a copy — the caller's dataframe is
unchanged after the call — and the only session state it changes is the
cleaning-report mapping: its own category key now maps to the new report
entry, every other key is unchanged, and the mapping grows by exactly one
entry when the key was absent (it is overwritten in place otherwise). -/
theorem C10_cleaning_frame (st : ReportMap) (df : List RawRow) (q : String) :
    ((AadhaarDataPreprocessor.clean_enrolment_data st df).df_after = df ∧
     (AadhaarDataPreprocessor.clean_enrolment_data st df).report_after.lookup q
       = (if q = "enrolment" then some (cleanData df).2 else st.lookup q) ∧
     (AadhaarDataPreprocessor.clean_enrolment_data st df).report_after.length
       = (if st.any (fun p => p.1 == "enrolment") then st.length else st.length + 1)) ∧
    ((AadhaarDataPreprocessor.clean_demographic_data st df).df_after = df ∧
     (AadhaarDataPreprocessor.clean_demographic_data st df).report_after.lookup q
       = (if q = "demographic" then some (cleanData df).2 else st.lookup q) ∧
     (AadhaarDataPreprocessor.clean_demographic_data st df).report_after.length
       = (if st.any (fun p => p.1 == "demographic") then st.length else st.length + 1)) ∧
    ((AadhaarDataPreprocessor.clean_biometric_data st df).df_after = df ∧
     (AadhaarDataPreprocessor.clean_biometric_data st df).report_after.lookup q
       = (if q = "biometric" then some (cleanData df).2 else st.lookup q) ∧
     (AadhaarDataPreprocessor.clean_biometric_data st df).report_after.length
       = (if st.any (fun p => p.1 == "biometric") then st.length else st.length + 1)) :=
  ⟨⟨rfl, dictInsert_lookup st "enrolment" (cleanData df).2 q,
    dictInsert_length st "enrolment" (cleanData df).2⟩,
   ⟨rfl, dictInsert_lookup st "demographic" (cleanData df).2 q,
    dictInsert_length st "demographic" (cleanData df).2⟩,
   ⟨rfl, dictInsert_lookup st "biometric" (cleanData df).2 q,
    dictInsert_length st "biometric" (cleanData df).2⟩⟩

/-! ### C8 — frame behaviour of the Analyzer operations -/

/-- Setting the month column on one row is a no-op iff the row already
carried its date's month. -/
theorem srow_setMonth_eq (a : SRow) :
    ({ a with month := some a.date.month } = a) ↔ a.month = some a.date.month := by
  cases a with
  | mk d mo v => simp [SRow.mk.injEq, eq_comm]

/-- C8 counterexample: `detect_seasonality` mutates its input table — on a
one-row table whose month column is absent, the caller's table differs
after the call, so not every listed Analyzer operation is pure. -/
theorem C8_counterexample :
    detect_seasonality_df_after [⟨⟨2024, 3, 15⟩, none, 7⟩] ≠ [⟨⟨2024, 3, 15⟩, none, 7⟩] := by
  decide

/-- C8 (amended): all listed Analyzer operations except
`detect_seasonality` leave their table arguments unchanged;
`detect_seasonality` assigns the month column from the date column on the
caller's table, so it leaves the table unchanged precisely when every row
already carries `month = date.month`. -/
theorem C8_analyzer_frame_effects :
    (∀ col : List (Option ℚ), univariate_analysis_df_after col = col) ∧
    (∀ cols : List (Option ℚ) × List (Option ℚ), bivariate_analysis_df_after cols = cols) ∧
    (∀ df : List (Date × ℚ), temporal_aggregation_df_after df = df) ∧
    (∀ df : List (String × ℚ), geographical_aggregation_df_after df = df) ∧
    (∀ xs : List ℚ, calculate_growth_rate_df_after xs = xs) ∧
    (∀ df : List (String × ℚ), top_n_analysis_df_after df = df) ∧
    (∀ dfs : List (String × ℚ) × List (String × ℚ),
      calculate_update_ratio_dfs_after dfs = dfs) ∧
    (∀ df : List SRow,
      detect_seasonality_df_after df = df ↔ ∀ r ∈ df, r.month = some r.date.month) := by
  refine ⟨fun _ => rfl, fun _ => rfl, fun _ => rfl, fun _ => rfl, fun _ => rfl,
    fun _ => rfl, fun _ => rfl, fun df => ?_⟩
  induction df with
  | nil => simp [detect_seasonality_df_after]
  | cons a l ih =>
    simp only [detect_seasonality_df_after] at ih ⊢
    simp only [List.map_cons, List.cons.injEq]
    rw [ih]
    constructor
    · rintro ⟨h1, h2⟩ r hr
      rcases List.mem_cons.mp hr with h | hr
      · subst h
        exact (srow_setMonth_eq _).mp h1
      · exact h2 r hr
    · intro h
      exact ⟨(srow_setMonth_eq a).mpr (h a (List.mem_cons_self a l)),
        fun r hr => h r (List.mem_cons.mpr (Or.inr hr))⟩

/-! ### C5 — bivariate_analysis pairs the two columns after independent dropna -/

/-- C5 (code bug): the code drops missing cells from each column
independently and pairs the remainders positionally.  With columns
`[1, 2, 3]` and `[4, missing, 5]` scipy receives arrays of lengths 3 and 2
and raises (modelled `.error ()`), where the spec's intersection gives the
two pairs (1,4), (3,5); with `[1, missing, 3]` and `[missing, 2, 4]` the
code silently correlates misaligned pairs (1,2), (3,4), where the
intersection has only the single pair (3,4). -/
theorem C5_bivariate_dropna_mismatch :
    bivariate_samples [some 1, some 2, some 3] [some 4, none, some 5] = .error () ∧
    specIntersectPairs [some 1, some 2, some 3] [some 4, none, some 5] = [(1, 4), (3, 5)] ∧
    bivariate_samples [some 1, none, some 3] [none, some 2, some 4] = .ok [(1, 2), (3, 4)] ∧
    specIntersectPairs [some 1, none, some 3] [none, some 2, some 4] = [(3, 4)] := by
  decide

/-! ### C6 — growth_rate -/

/-- C6: the growth column has one entry per row; its first `periods`
entries are NaN (missing, not zero); entry `t ≥ periods` equals
`(v[t] − v[t−periods]) / v[t−periods] · 100` (stated for a nonzero lagged
value, where the quotient is finite); and on the sequence
[100, 150, 120] with lag 1 the column is [NaN, 50, −20]. -/
theorem C6_growth_rate (xs : List ℚ) (periods t : Nat) :
    (calculate_growth_rate xs periods).length = xs.length ∧
    (t < periods → t < xs.length →
      (calculate_growth_rate xs periods)[t]? = some PyFloat.nan) ∧
    (∀ prev cur, periods ≤ t → xs[t - periods]? = some prev → xs[t]? = some cur →
      prev ≠ 0 →
      (calculate_growth_rate xs periods)[t]?
        = some (PyFloat.val ((cur - prev) / prev * 100))) ∧
    calculate_growth_rate [100, 150, 120] 1 = [.nan, .val 50, .val (-20)] := by
  refine ⟨?_, ?_, ?_, by decide⟩
  · simp only [calculate_growth_rate, List.length_append, List.length_replicate,
      List.length_zipWith, List.length_drop]
    omega
  · intro h1 h2
    rw [calculate_growth_rate, List.getElem?_append]
    rw [List.length_replicate, if_pos (by omega), List.getElem?_replicate, if_pos (by omega)]
  · intro prev cur hp hprev hcur hne
    have hn : t < xs.length := by
      by_contra hcon
      rw [List.getElem?_eq_none (by omega)] at hcur
      exact Option.noConfusion hcur
    rw [calculate_growth_rate, List.getElem?_append, List.length_replicate]
    rw [if_neg (by omega)]
    have hmin : min periods xs.length = periods := by omega
    rw [hmin, List.getElem?_zipWith, List.getElem?_drop]
    have harith : periods + (t - periods) = t := by omega
    rw [harith, hcur, hprev]
    simp [PyFloat.pydiv, PyFloat.pfMul, hne]

/-- Witness for C6_growth_rate: on [100, 150, 120] with lag 1 the first
entry is NaN and the second is 50%. -/
theorem C6_witness :
    (calculate_growth_rate [100, 150, 120] 1)[0]? = some PyFloat.nan ∧
    (calculate_growth_rate [100, 150, 120] 1)[1]?
      = some (PyFloat.val ((150 - 100) / 100 * 100)) :=
  ⟨(C6_growth_rate [100, 150, 120] 1 0).2.1 (by decide) (by decide),
   (C6_growth_rate [100, 150, 120] 1 1).2.2.1 100 150 (by decide) (by decide)
     (by decide) (by decide)⟩

/-! ### C4 — the Gini coefficient -/

/-- A lower bound for the sum of a list bounded below element-wise. -/
theorem length_mul_le_sum {x : ℚ} {xs : List ℚ} (h : ∀ y ∈ xs, x ≤ y) :
    (xs.length : ℚ) * x ≤ xs.sum := by
  induction xs with
  | nil => simp
  | cons a l ih =>
    simp only [List.length_cons, List.sum_cons]
    have h1 : x ≤ a := h a (List.mem_cons_self a l)
    have h2 : (l.length : ℚ) * x ≤ l.sum := ih (fun y hy => h y (List.mem_cons_of_mem a hy))
    push_cast
    linarith

/-- Chebyshev-type lower bound: on an ascending list the 1-indexed
rank-weighted sum dominates `(n+1)·Σv / 2`. -/
theorem two_weightedSum_ge (l : List ℚ) (hs : List.Pairwise (fun a b : ℚ => a ≤ b) l) :
    ((l.length : ℚ) + 1) * l.sum ≤ 2 * weightedSum l := by
  induction l with
  | nil => simp [weightedSum]
  | cons x xs ih =>
    rcases List.pairwise_cons.mp hs with ⟨hx, hP⟩
    have ihx := ih hP
    have hnx := length_mul_le_sum hx
    simp only [List.length_cons, List.sum_cons, weightedSum]
    push_cast
    nlinarith [hnx, ihx]

/-- Upper bound: every rank weight is at most `n`. -/
theorem weightedSum_le (l : List ℚ) (h : ∀ v ∈ l, 0 ≤ v) :
    weightedSum l ≤ (l.length : ℚ) * l.sum := by
  induction l with
  | nil => simp [weightedSum]
  | cons x xs ih =>
    have hx : 0 ≤ x := h x (List.mem_cons_self x xs)
    have ihs := ih (fun v hv => h v (List.mem_cons_of_mem x hv))
    have hS : 0 ≤ xs.sum := List.sum_nonneg (fun v hv => h v (List.mem_cons_of_mem x hv))
    simp only [weightedSum, List.length_cons, List.sum_cons]
    push_cast
    nlinarith [Nat.cast_nonneg (α := ℚ) xs.length, mul_nonneg (Nat.cast_nonneg (α := ℚ) xs.length) hx]

/-- The rank-weighted sum of an all-zero list is zero. -/
theorem weightedSum_eq_zero {l : List ℚ} (h : ∀ v ∈ l, v = 0) : weightedSum l = 0 := by
  induction l with
  | nil => rfl
  | cons x xs ih =>
    simp only [weightedSum]
    rw [h x (List.mem_cons_self x xs), ih (fun v hv => h v (List.mem_cons_of_mem x hv)),
      List.sum_eq_zero (fun v hv => h v (List.mem_cons_of_mem x hv))]
    ring

/-- C4 counterexample: on the empty table `cumsum[-1]` raises IndexError —
a crash, where the claim requires an undefined value — and with a negative
value the result leaves [0, 1]: `gini [-1, 2] = 3/2`. -/
theorem C4_counterexample :
    calculate_concentration_index ([] : List ℚ) = .error () ∧
    calculate_concentration_index [(-1 : ℚ), 2] = .ok (.val (3/2)) ∧
    ¬ ((3 : ℚ)/2 ≤ 1) := by decide

/-- C4 (amended): for a nonempty table of non-negative values with positive
sum the Gini value is a finite number in [0, 1]; a uniform table gives 0
and the ten-group concentration example gives 9/10; a nonempty all-zero
table gives NaN (undefined, not zero, no crash); the empty table raises
IndexError. -/
theorem C4_gini (values : List ℚ) :
    (values ≠ [] → (∀ v ∈ values, 0 ≤ v) → 0 < values.sum →
      ∃ g : ℚ, calculate_concentration_index values = .ok (.val g) ∧ 0 ≤ g ∧ g ≤ 1) ∧
    (values ≠ [] → (∀ v ∈ values, v = 0) →
      calculate_concentration_index values = .ok .nan) ∧
    calculate_concentration_index (List.replicate 10 (100 : ℚ)) = .ok (.val 0) ∧
    calculate_concentration_index ((1000 : ℚ) :: List.replicate 9 0) = .ok (.val (9/10)) ∧
    calculate_concentration_index ([] : List ℚ) = .error () := by
  refine ⟨?_, ?_, by decide, by decide, by decide⟩
  · intro hne hpos hsum
    have hperm := List.perm_insertionSort (fun a b : ℚ => a ≤ b) values
    have hlen : (values.insertionSort (fun a b : ℚ => a ≤ b)).length = values.length :=
      hperm.length_eq
    have hsum2 : (values.insertionSort (fun a b : ℚ => a ≤ b)).sum = values.sum :=
      hperm.sum_eq
    have hsorted := List.sorted_insertionSort (fun a b : ℚ => a ≤ b) values
    have hnn : ∀ v ∈ values.insertionSort (fun a b : ℚ => a ≤ b), 0 ≤ v :=
      fun v hv => hpos v (hperm.mem_iff.mp hv)
    have hn0 : (values.insertionSort (fun a b : ℚ => a ≤ b)).length ≠ 0 := by
      rw [hlen]
      exact fun hc => hne (List.eq_nil_of_length_eq_zero hc)
    have hnpos : (0 : ℚ) < ((values.insertionSort (fun a b : ℚ => a ≤ b)).length : ℚ) := by
      exact_mod_cast Nat.pos_of_ne_zero hn0
    have hTpos : (0 : ℚ) < (values.insertionSort (fun a b : ℚ => a ≤ b)).sum := by
      rw [hsum2]; exact hsum
    set n : ℚ := ((values.insertionSort (fun a b : ℚ => a ≤ b)).length : ℚ) with hn
    set T : ℚ := (values.insertionSort (fun a b : ℚ => a ≤ b)).sum with hT
    set W : ℚ := weightedSum (values.insertionSort (fun a b : ℚ => a ≤ b)) with hW
    have hlow : (n + 1) * T ≤ 2 * W := two_weightedSum_ge _ hsorted
    have hup : W ≤ n * T := weightedSum_le _ hnn
    have hden : n * T ≠ 0 := ne_of_gt (mul_pos hnpos hTpos)
    refine ⟨2 * W / (n * T) - (n + 1) / n, ?_, ?_, ?_⟩
    · simp only [calculate_concentration_index, if_neg hn0, PyFloat.pydiv, if_neg hden,
        PyFloat.pfSub]
    · have h1 : (n + 1) / n ≤ 2 * W / (n * T) := by
        rw [div_le_div_iff₀ hnpos (mul_pos hnpos hTpos)]
        nlinarith [hlow]
      linarith
    · have h2 : 2 * W / (n * T) ≤ 2 := by
        rw [div_le_iff₀ (mul_pos hnpos hTpos)]
        nlinarith [hup]
      have h3 : (1 : ℚ) ≤ (n + 1) / n := by
        rw [le_div_iff₀ hnpos]
        linarith
      linarith
  · intro hne hzero
    have hperm := List.perm_insertionSort (fun a b : ℚ => a ≤ b) values
    have hzero2 : ∀ v ∈ values.insertionSort (fun a b : ℚ => a ≤ b), v = 0 :=
      fun v hv => hzero v (hperm.mem_iff.mp hv)
    have hn0 : (values.insertionSort (fun a b : ℚ => a ≤ b)).length ≠ 0 := by
      rw [hperm.length_eq]
      exact fun hc => hne (List.eq_nil_of_length_eq_zero hc)
    simp [calculate_concentration_index, if_neg hn0, weightedSum_eq_zero hzero2,
      List.sum_eq_zero hzero2, PyFloat.pydiv, PyFloat.pfSub]
    exact hne

/-- Witness for C4_gini: on [1, 2, 3] the Gini value is finite and lies in
[0, 1]; on the all-zero table [0, 0] it is NaN. -/
theorem C4_witness :
    (∃ g : ℚ, calculate_concentration_index [1, 2, 3] = .ok (.val g) ∧ 0 ≤ g ∧ g ≤ 1) ∧
    calculate_concentration_index [(0 : ℚ), 0] = .ok .nan :=
  ⟨(C4_gini [1, 2, 3]).1 (by decide) (by decide) (by decide),
   (C4_gini [(0 : ℚ), 0]).2.1 (by decide) (by decide)⟩

/-! ### C7 — top_n_analysis against geographical_aggregation -/

/-- The `nlargest(keep='first')` comparator, read as a proposition. -/
theorem nlargestLE_iff {K : Type} [LinearOrder K] (a b : K × ℚ) :
    nlargestLE a b = true ↔ (b.2 < a.2 ∨ (a.2 = b.2 ∧ a.1 ≤ b.1)) := by
  simp [nlargestLE, Bool.or_eq_true, Bool.and_eq_true, decide_eq_true_eq]

/-- The comparator is total. -/
theorem nlargestLE_total {K : Type} [LinearOrder K] (a b : K × ℚ) :
    nlargestLE a b = true ∨ nlargestLE b a = true := by
  rw [nlargestLE_iff, nlargestLE_iff]
  rcases lt_trichotomy a.2 b.2 with h | h | h
  · exact Or.inr (Or.inl h)
  · rcases le_total a.1 b.1 with hk | hk
    · exact Or.inl (Or.inr ⟨h, hk⟩)
    · exact Or.inr (Or.inr ⟨h.symm, hk⟩)
  · exact Or.inl (Or.inl h)

/-- The comparator is transitive. -/
theorem nlargestLE_trans {K : Type} [LinearOrder K] {a b c : K × ℚ}
    (h1 : nlargestLE a b = true) (h2 : nlargestLE b c = true) :
    nlargestLE a c = true := by
  rw [nlargestLE_iff] at h1 h2 ⊢
  rcases h1 with h1 | ⟨h1e, h1k⟩
  · rcases h2 with h2 | ⟨h2e, h2k⟩
    · exact Or.inl (h2.trans h1)
    · exact Or.inl (by rw [← h2e]; exact h1)
  · rcases h2 with h2 | ⟨h2e, h2k⟩
    · exact Or.inl (by rw [h1e]; exact h2)
    · exact Or.inr ⟨h1e.trans h2e, h1k.trans h2k⟩

/-- The head of a sorted list dominates every element of the original. -/
theorem head_insertionSort_max {α : Type} (r : α → α → Prop) [DecidableRel r]
    [IsTotal α r] [IsTrans α r] (l : List α) (x : α)
    (hx : (l.insertionSort r).head? = some x) : ∀ y ∈ l, r x y := by
  have hs := List.sorted_insertionSort r l
  have hperm := List.perm_insertionSort r l
  intro y hy
  have hy2 : y ∈ l.insertionSort r := hperm.mem_iff.mpr hy
  cases hsort : l.insertionSort r with
  | nil =>
    rw [hsort] at hy2
    cases hy2
  | cons a t =>
    rw [hsort] at hx hy2 hs
    have hax : a = x := by
      simpa using hx
    subst hax
    rcases List.mem_cons.mp hy2 with h | hyt
    · subst h
      exact (IsTotal.total y y).elim id id
    · exact (List.pairwise_cons.mp hs).1 y hyt

/-- Membership in `groupSums`. -/
theorem mem_groupSums_iff {K : Type} [LinearOrder K] {df : List (K × ℚ)} {p : K × ℚ} :
    p ∈ groupSums df ↔ p.1 ∈ groupKeys df ∧ p.2 = sumFor df p.1 := by
  unfold groupSums
  rw [List.mem_map]
  constructor
  · rintro ⟨k, hk, rfl⟩
    exact ⟨hk, rfl⟩
  · rintro ⟨h1, h2⟩
    exact ⟨p.1, h1, Prod.ext rfl h2.symm⟩

/-- A nonempty table has a nonempty grouped table. -/
theorem groupSums_ne_nil {K : Type} [LinearOrder K] {df : List (K × ℚ)} (h : df ≠ []) :
    groupSums df ≠ [] := by
  unfold groupSums groupKeys
  intro hc
  rw [List.map_eq_nil_iff] at hc
  have hperm := List.perm_insertionSort (fun a b : K => a ≤ b) ((df.map Prod.fst).dedup)
  rw [hc] at hperm
  have hd : (df.map Prod.fst).dedup = [] := hperm.symm.eq_nil
  rw [List.dedup_eq_nil, List.map_eq_nil_iff] at hd
  exact h hd

/-- The multiset of sums shown by `geographical_aggregation` is that of
`groupSums`. -/
theorem geo_sums_perm {K : Type} [LinearOrder K] (df : List (K × ℚ)) :
    ((geographical_aggregation df).map (fun e => e.2.1)).Perm
      ((groupKeys df).map (fun k => sumFor df k)) := by
  unfold geographical_aggregation
  have h := (List.perm_insertionSort
    (fun a b : K × ℚ × ℚ × Nat => b.2.1 ≤ a.2.1)
    ((groupKeys df).map
      (fun k => (k, sumFor df k, sumFor df k / (countFor df k : ℚ), countFor df k)))).map
        (fun e : K × ℚ × ℚ × Nat => e.2.1)
  rw [List.map_map] at h
  exact h

/-- C7: top_n_analysis returns the grouped sums sorted descending with
ties broken by the ascending group-key order of the grouped table (the
order `nlargest(keep='first')` sees), and on a nonempty table with n ≥ 1
its first entry's sum is the maximum group sum of the
`geographical_aggregation` output for the same grouping. -/
theorem C7_top_n {K : Type} [LinearOrder K] (df : List (K × ℚ)) (n : Nat) :
    List.Pairwise (fun a b : K × ℚ => b.2 < a.2 ∨ (a.2 = b.2 ∧ a.1 ≤ b.1))
        (top_n_analysis df n) ∧
    (df ≠ [] → 1 ≤ n → ∃ k s, (top_n_analysis df n).head? = some (k, s) ∧
      s ∈ (geographical_aggregation df).map (fun e => e.2.1) ∧
      ∀ x ∈ (geographical_aggregation df).map (fun e => e.2.1), x ≤ s) := by
  haveI htot : IsTotal (K × ℚ) (fun a b => nlargestLE a b = true) := ⟨nlargestLE_total⟩
  haveI htr : IsTrans (K × ℚ) (fun a b => nlargestLE a b = true) :=
    ⟨fun a b c h1 h2 => nlargestLE_trans h1 h2⟩
  constructor
  · have hs := List.sorted_insertionSort (fun a b => nlargestLE a b = true) (groupSums df)
    have hp := hs.sublist (List.take_sublist n _)
    exact hp.imp (fun h => (nlargestLE_iff _ _).mp h)
  · intro hne hn1
    have hGSne : groupSums df ≠ [] := groupSums_ne_nil hne
    have hsort_ne :
        (groupSums df).insertionSort (fun a b => nlargestLE a b = true) ≠ [] := by
      intro hc
      have hperm := List.perm_insertionSort (fun a b => nlargestLE a b = true) (groupSums df)
      rw [hc] at hperm
      exact hGSne hperm.symm.eq_nil
    obtain ⟨⟨k, s⟩, t, hcons⟩ := List.exists_cons_of_ne_nil hsort_ne
    have hhead :
        ((groupSums df).insertionSort (fun a b => nlargestLE a b = true)).head?
          = some (k, s) := by
      rw [hcons]; rfl
    have htake : (top_n_analysis df n).head? = some (k, s) := by
      unfold top_n_analysis
      cases n with
      | zero => omega
      | succ m => rw [hcons]; rfl
    have hmax : ∀ y ∈ groupSums df, nlargestLE (k, s) y = true :=
      head_insertionSort_max _ _ _ hhead
    have hks : (k, s) ∈ groupSums df := by
      have : (k, s) ∈ (groupSums df).insertionSort (fun a b => nlargestLE a b = true) := by
        rw [hcons]; exact List.mem_cons_self _ _
      exact (List.perm_insertionSort _ _).mem_iff.mp this
    have hks2 := mem_groupSums_iff.mp hks
    refine ⟨k, s, htake, ?_, ?_⟩
    · rw [(geo_sums_perm df).mem_iff, List.mem_map]
      exact ⟨k, hks2.1, hks2.2.symm⟩
    · intro x hx
      rw [(geo_sums_perm df).mem_iff, List.mem_map] at hx
      obtain ⟨k2, hk2, hx2⟩ := hx
      have hmem : (k2, x) ∈ groupSums df :=
        mem_groupSums_iff.mpr ⟨hk2, hx2.symm⟩
      have := (nlargestLE_iff (k, s) (k2, x)).mp (hmax _ hmem)
      rcases this with h | ⟨h, _⟩
      · exact le_of_lt h
      · exact le_of_eq h.symm

/-- Witness for C7_top_n on a concrete table with a tie. -/
theorem C7_witness :
    ∃ k s, (top_n_analysis [((2 : ℕ), (5 : ℚ)), (1, 3), (1, 2), (3, 5)] 2).head?
        = some (k, s) ∧
      s ∈ (geographical_aggregation
            [((2 : ℕ), (5 : ℚ)), (1, 3), (1, 2), (3, 5)]).map (fun e => e.2.1) ∧
      ∀ x ∈ (geographical_aggregation
            [((2 : ℕ), (5 : ℚ)), (1, 3), (1, 2), (3, 5)]).map (fun e => e.2.1), x ≤ s :=
  (C7_top_n [((2 : ℕ), (5 : ℚ)), (1, 3), (1, 2), (3, 5)] 2).2 (by decide) (by decide)

/-! ### C3 — calculate_update_ratio -/

/-- The descending ratio order is total. -/
theorem pfDescLe_total (x y : PyFloat) : pfDescLe x y = true ∨ pfDescLe y x = true := by
  cases x <;> cases y <;> simp [pfDescLe] <;> exact le_total _ _

/-- The descending ratio order is transitive. -/
theorem pfDescLe_trans {x y z : PyFloat} (h1 : pfDescLe x y = true)
    (h2 : pfDescLe y z = true) : pfDescLe x z = true := by
  cases x <;> cases y <;> cases z <;> simp_all [pfDescLe] <;> exact le_trans h2 h1

/-- A ratio whose enrolment sum is zero is NaN or ±inf — never a finite
number (so never silently 0). -/
theorem ratio_zero_enrol_not_finite (u : ℚ) :
    ¬ (PyFloat.pfRound2 ((PyFloat.pydiv u 0).pfMul 100)).isFinite := by
  unfold PyFloat.pydiv
  rw [if_pos rfl]
  split_ifs <;>
    simp [PyFloat.pfMul, PyFloat.pfRound2, PyFloat.isFinite,
      show (0 : ℚ) < 100 by norm_num]

/-- Every output row of `calculate_update_ratio` carries the two group
sums and the rounded percentage ratio of its key. -/
theorem mem_update_ratio {K : Type} [LinearOrder K] {et ut : List (K × ℚ)}
    {k : K} {e u : ℚ} {r : PyFloat}
    (h : (k, e, u, r) ∈ calculate_update_ratio et ut) :
    e = sumFor et k ∧ u = sumFor ut k ∧
      r = PyFloat.pfRound2 ((PyFloat.pydiv (sumFor ut k) (sumFor et k)).pfMul 100) := by
  unfold calculate_update_ratio at h
  have h2 := (List.perm_insertionSort _ _).mem_iff.mp h
  rw [List.mem_map] at h2
  obtain ⟨k2, hk2, heq⟩ := h2
  simp only [Prod.mk.injEq] at heq
  obtain ⟨h1, h2e, h3u, h4r⟩ := heq
  subst h1
  exact ⟨h2e.symm, h3u.symm, h4r.symm⟩

/-- Every geography key of either input appears in the output (the outer
join over the union of keys). -/
theorem update_ratio_complete {K : Type} [LinearOrder K] (et ut : List (K × ℚ)) (k : K)
    (h : k ∈ et.map Prod.fst ∨ k ∈ ut.map Prod.fst) :
    ∃ e u r, (k, e, u, r) ∈ calculate_update_ratio et ut := by
  refine ⟨sumFor et k, sumFor ut k,
    PyFloat.pfRound2 ((PyFloat.pydiv (sumFor ut k) (sumFor et k)).pfMul 100), ?_⟩
  unfold calculate_update_ratio
  rw [(List.perm_insertionSort _ _).mem_iff, List.mem_map]
  refine ⟨k, ?_, rfl⟩
  rw [(List.perm_insertionSort _ _).mem_iff, List.mem_dedup, List.mem_append]
  rcases h with h | h
  · exact Or.inl h
  · exact Or.inr h

/-- C3: update_ratio sums enrolments and updates by geography key,
outer-joins on the union of keys with a missing side summed as 0, computes
updates / enrolments × 100 rounded to 2 decimals, is sorted descending by
ratio (NaN last), represents a zero-enrolment group's ratio as a
non-finite value (±inf or NaN, never 0, never an exception), and on
enrolments {StateA: 100, StateB: 0}, updates {StateA: 50, StateB: 10}
yields StateA ratio 50.0 and StateB ratio +inf. -/
theorem C3_update_ratio {K : Type} [LinearOrder K] (et ut : List (K × ℚ)) :
    (∀ k e u r, (k, e, u, r) ∈ calculate_update_ratio et ut →
      e = sumFor et k ∧ u = sumFor ut k ∧
        r = PyFloat.pfRound2 ((PyFloat.pydiv u e).pfMul 100) ∧
        (e = 0 → ¬ r.isFinite)) ∧
    (∀ k, k ∈ et.map Prod.fst ∨ k ∈ ut.map Prod.fst →
      ∃ e u r, (k, e, u, r) ∈ calculate_update_ratio et ut) ∧
    List.Pairwise (fun a b : K × ℚ × ℚ × PyFloat => pfDescLe a.2.2.2 b.2.2.2 = true)
      (calculate_update_ratio et ut) ∧
    calculate_update_ratio [("StateA".data, (100 : ℚ)), ("StateB".data, 0)]
        [("StateA".data, (50 : ℚ)), ("StateB".data, 10)]
      = [("StateB".data, 0, 10, PyFloat.inf),
         ("StateA".data, 100, 50, PyFloat.val 50)] := by
  refine ⟨?_, update_ratio_complete et ut, ?_, by decide⟩
  · intro k e u r h
    obtain ⟨he, hu, hr⟩ := mem_update_ratio h
    refine ⟨he, hu, by rw [he, hu]; exact hr, ?_⟩
    intro he0
    rw [hr, ← hu]
    rw [he0] at he
    rw [← he]
    exact ratio_zero_enrol_not_finite u
  · haveI : IsTotal (K × ℚ × ℚ × PyFloat)
        (fun a b => pfDescLe a.2.2.2 b.2.2.2 = true) :=
      ⟨fun a b => pfDescLe_total _ _⟩
    haveI : IsTrans (K × ℚ × ℚ × PyFloat)
        (fun a b => pfDescLe a.2.2.2 b.2.2.2 = true) :=
      ⟨fun a b c h1 h2 => pfDescLe_trans h1 h2⟩
    unfold calculate_update_ratio
    exact List.sorted_insertionSort _ _

/-- Witness for C3_update_ratio at the spec's StateA/StateB table: the
StateB row carries enrolment sum 0, update sum 10, and the non-finite
ratio +inf. -/
theorem C3_witness :
    (0 : ℚ) = sumFor [("StateA".data, (100 : ℚ)), ("StateB".data, 0)] "StateB".data ∧
    (10 : ℚ) = sumFor [("StateA".data, (50 : ℚ)), ("StateB".data, 10)] "StateB".data ∧
    PyFloat.inf
      = PyFloat.pfRound2 ((PyFloat.pydiv 10 0).pfMul 100) ∧
    ((0 : ℚ) = 0 → ¬ PyFloat.inf.isFinite) :=
  (C3_update_ratio [("StateA".data, (100 : ℚ)), ("StateB".data, 0)]
      [("StateA".data, (50 : ℚ)), ("StateB".data, 10)]).1
    "StateB".data 0 10 PyFloat.inf (by decide)
